import Mathlib

/-
Verification of the composite IMU state block of ov_core
(src/ov_core/src/types/IMU.h).

The IMU block is a composite manifold state variable: a PoseJPL (JPL
quaternion + position), three 3-dimensional Euclidean sub-blocks
(velocity, gyro bias, accel bias), and a second PoseJPL ("keyframe
pose").  Ambient dimension 23, error dimension 21.

Embedding conventions:
  - Scalars are rationals (the C++ code computes in IEEE doubles; the
    claims under verification are about structure, offsets and exact
    algebraic identities, which we state over an exact field).
  - Eigen column vectors are Lean lists; a general Eigen MatrixXd
    argument is a MatX record carrying its column count so that the
    23x1 shape asserts can be stated.  Entry reads v(i) become
    List.getD i 0.
  - A C++ assert that can fire is modelled by returning Option.none:
    the C++ program aborts before any write, so a failing call produces
    no successor state at all.
  - shared_ptr identity (used only by check_if_subvariable) is modelled
    by symbolic handles naming the distinct heap objects of one IMU
    tree, plus a handle for the IMU itself and one for any foreign
    block.
  - The repository snapshot contains only IMU.h; the base class Type,
    the leaf blocks Vec and JPLQuat, the composite PoseJPL and the
    quaternion helpers quatnorm / quat_multiply are declared elsewhere.
    Their definitions below are modelled from the specification
    (sections 3, 4.1-4.4) and are marked as such in their doc comments.
-/

namespace ov_type

/-- Modelled from the spec: exact square root on the rationals, used by
quaternion normalization.  On a rational whose numerator and denominator
are perfect squares it returns the exact square root; every claim below
evaluates it only at such points (in particular at 1). -/
def ratSqrt (x : ℚ) : ℚ :=
  (Nat.sqrt x.num.toNat : ℚ) / (Nat.sqrt x.den : ℚ)

/-- Modelled from the spec: quaternion normalization (quat_ops.h is not
in the snapshot).  Divides the 4-vector by its Euclidean norm. -/
def quatnorm (q : List ℚ) : List ℚ :=
  let s := ratSqrt (q.getD 0 0 ^ 2 + q.getD 1 0 ^ 2 + q.getD 2 0 ^ 2 + q.getD 3 0 ^ 2)
  [q.getD 0 0 / s, q.getD 1 0 / s, q.getD 2 0 / s, q.getD 3 0 / s]

/-- Modelled from the spec: JPL quaternion product (scalar-last), the
composition law written as dq x q in the spec. -/
def quat_multiply (q p : List ℚ) : List ℚ :=
  [  q.getD 3 0 * p.getD 0 0 + q.getD 2 0 * p.getD 1 0
       - q.getD 1 0 * p.getD 2 0 + q.getD 0 0 * p.getD 3 0,
    -(q.getD 2 0) * p.getD 0 0 + q.getD 3 0 * p.getD 1 0
       + q.getD 0 0 * p.getD 2 0 + q.getD 1 0 * p.getD 3 0,
     q.getD 1 0 * p.getD 0 0 - q.getD 0 0 * p.getD 1 0
       + q.getD 3 0 * p.getD 2 0 + q.getD 2 0 * p.getD 3 0,
    -(q.getD 0 0) * p.getD 0 0 - q.getD 1 0 * p.getD 1 0
       - q.getD 2 0 * p.getD 2 0 + q.getD 3 0 * p.getD 3 0 ]

/-- Modelled from the spec: a Euclidean leaf block (class Vec).  It
stores the constructor dimension (Type's error-dimension field), the
covariance index (-1 when unregistered), the current value and the
frozen linearization value. -/
structure Vec where
  sz : Nat
  id : Int
  value : List ℚ
  fej : List ℚ
deriving DecidableEq

/-- Modelled from the spec: a unit-quaternion leaf block (class JPLQuat),
ambient dimension 4, error dimension 3. -/
structure JPLQuat where
  id : Int
  value : List ℚ
  fej : List ℚ
deriving DecidableEq

/-- Modelled from the spec: the pose composite (class PoseJPL): one
JPLQuat child and one Vec(3) child, ambient 7, error 6, plus the flat
7-vector value and linearization value stored on the composite itself. -/
structure PoseJPL where
  id : Int
  q : JPLQuat
  p : Vec
  value : List ℚ
  fej : List ℚ
deriving DecidableEq

/-- An Eigen MatrixXd argument: its column count together with its first
column (the only column any of the modelled code reads). -/
structure MatX where
  cols : Nat
  data : List ℚ
deriving DecidableEq

/-- A column vector as a MatX. -/
def colVec (l : List ℚ) : MatX := ⟨1, l⟩

/-- The IMU composite state block of IMU.h: pose, velocity, gyro bias,
accel bias and keyframe pose children, the flat 23-vector value and
linearization value, and the covariance index.  Its error dimension is
the constant 21 (the Type(21) constructor argument, never mutated). -/
structure IMU where
  id : Int
  pose : PoseJPL
  v : Vec
  bg : Vec
  ba : Vec
  keyframe_pose : PoseJPL
  value : List ℚ
  fej : List ℚ
deriving DecidableEq

/-- Modelled from the spec: Type::set_local_id on a leaf stores the new
covariance index. -/
def Vec.set_local_id (b : Vec) (i : Int) : Vec := { b with id := i }

/-- Modelled from the spec: Type::size returns the error dimension fixed
at construction. -/
def Vec.size (b : Vec) : Nat := b.sz

/-- Modelled from the spec: Type::set_value on a Euclidean leaf asserts
that the new value has the shape of the current one, then overwrites. -/
def Vec.set_value (b : Vec) (nv : List ℚ) : Option Vec :=
  if nv.length = b.value.length then some { b with value := nv } else none

/-- Modelled from the spec: Type::set_fej on a Euclidean leaf. -/
def Vec.set_fej (b : Vec) (nv : List ℚ) : Option Vec :=
  if nv.length = b.fej.length then some { b with fej := nv } else none

/-- Modelled from the spec: JPLQuat::set_local_id. -/
def JPLQuat.set_local_id (b : JPLQuat) (i : Int) : JPLQuat := { b with id := i }

/-- Modelled from the spec: JPLQuat::set_value asserts a 4x1 argument and
overwrites the stored quaternion (the cached rotation matrix it also
refreshes is a derived quantity no claim mentions, so it is not part of
the state here). -/
def JPLQuat.set_value (b : JPLQuat) (nv : List ℚ) : Option JPLQuat :=
  if nv.length = 4 then some { b with value := nv } else none

/-- Modelled from the spec: JPLQuat::set_fej. -/
def JPLQuat.set_fej (b : JPLQuat) (nv : List ℚ) : Option JPLQuat :=
  if nv.length = 4 then some { b with fej := nv } else none

/-- Modelled from the spec: PoseJPL error dimension (Type(6)). -/
def PoseJPL.size : Nat := 6

/-- Modelled from the spec (section 4.4): PoseJPL::set_local_id assigns
the pose's own index to itself and to both children. -/
def PoseJPL.set_local_id (b : PoseJPL) (i : Int) : PoseJPL :=
  { b with id := i, q := b.q.set_local_id i, p := b.p.set_local_id i }

/-- Modelled from the spec: PoseJPL::set_value asserts a 7x1 argument,
gives rows [0:4) to the quaternion child and rows [4:7) to the position
child, then stores the flat 7-vector on itself. -/
def PoseJPL.set_value (b : PoseJPL) (nv : List ℚ) : Option PoseJPL :=
  if nv.length = 7 then
    (b.q.set_value (nv.take 4)).bind fun q2 =>
    (b.p.set_value ((nv.drop 4).take 3)).bind fun p2 =>
    some { b with q := q2, p := p2, value := nv }
  else none

/-- Modelled from the spec: PoseJPL::set_fej, same split as set_value. -/
def PoseJPL.set_fej (b : PoseJPL) (nv : List ℚ) : Option PoseJPL :=
  if nv.length = 7 then
    (b.q.set_fej (nv.take 4)).bind fun q2 =>
    (b.p.set_fej ((nv.drop 4).take 3)).bind fun p2 =>
    some { b with q := q2, p := p2, fej := nv }
  else none

/-- Modelled from the spec: PoseJPL::quat returns the quaternion child's
current value. -/
def PoseJPL.quat (b : PoseJPL) : List ℚ := b.q.value

/-- IMU error dimension: the Type(21) constructor argument of IMU.h. -/
def IMU.sz : Nat := 21

/-- IMU::quat from IMU.h: the pose child's quaternion. -/
def IMU.quat (b : IMU) : List ℚ := b.pose.quat

/-- IMU::keyframe_quat from IMU.h: the keyframe pose child's quaternion. -/
def IMU.keyframe_quat (b : IMU) : List ℚ := b.keyframe_pose.quat

/-- IMU::set_local_id from IMU.h: stores the new index on itself, gives
the pose the same index, then hands every later child the previous
child's index advanced by the previous child's error dimension, the
advance being suppressed when the incoming index is -1. -/
def IMU.set_local_id (b : IMU) (new_id : Int) : IMU :=
  let pose2 := b.pose.set_local_id new_id
  let v2 := b.v.set_local_id (pose2.id + (if new_id ≠ -1 then (PoseJPL.size : Int) else 0))
  let bg2 := b.bg.set_local_id (v2.id + (if new_id ≠ -1 then (b.v.size : Int) else 0))
  let ba2 := b.ba.set_local_id (bg2.id + (if new_id ≠ -1 then (b.bg.size : Int) else 0))
  let kf2 := b.keyframe_pose.set_local_id (ba2.id + (if new_id ≠ -1 then (b.ba.size : Int) else 0))
  { b with id := new_id, pose := pose2, v := v2, bg := bg2, ba := ba2, keyframe_pose := kf2 }

/-- IMU::set_value_internal from IMU.h: asserts a 23x1 argument,
distributes rows [0:7) to the pose, [7:10) to velocity, [10:13) to gyro
bias, [13:16) to accel bias and [16:23) to the keyframe pose, then
stores the flat 23-vector on itself. -/
def IMU.set_value_internal (b : IMU) (m : MatX) : Option IMU :=
  if m.data.length = 23 ∧ m.cols = 1 then
    (b.pose.set_value (m.data.take 7)).bind fun pose2 =>
    (b.v.set_value ((m.data.drop 7).take 3)).bind fun v2 =>
    (b.bg.set_value ((m.data.drop 10).take 3)).bind fun bg2 =>
    (b.ba.set_value ((m.data.drop 13).take 3)).bind fun ba2 =>
    (b.keyframe_pose.set_value ((m.data.drop 16).take 7)).bind fun kf2 =>
    some { b with pose := pose2, v := v2, bg := bg2, ba := ba2,
                  keyframe_pose := kf2, value := m.data }
  else none

/-- IMU::set_fej_internal from IMU.h: the linearization-value twin of
set_value_internal. -/
def IMU.set_fej_internal (b : IMU) (m : MatX) : Option IMU :=
  if m.data.length = 23 ∧ m.cols = 1 then
    (b.pose.set_fej (m.data.take 7)).bind fun pose2 =>
    (b.v.set_fej ((m.data.drop 7).take 3)).bind fun v2 =>
    (b.bg.set_fej ((m.data.drop 10).take 3)).bind fun bg2 =>
    (b.ba.set_fej ((m.data.drop 13).take 3)).bind fun ba2 =>
    (b.keyframe_pose.set_fej ((m.data.drop 16).take 7)).bind fun kf2 =>
    some { b with pose := pose2, v := v2, bg := bg2, ba := ba2,
                  keyframe_pose := kf2, fej := m.data }
  else none

/-- IMU::set_value from IMU.h forwards to set_value_internal. -/
def IMU.set_value (b : IMU) (m : MatX) : Option IMU := b.set_value_internal m

/-- IMU::set_fej from IMU.h forwards to set_fej_internal. -/
def IMU.set_fej (b : IMU) (m : MatX) : Option IMU := b.set_fej_internal m

/-- IMU::update from IMU.h: asserts a 21-row correction, builds the two
increment quaternions normalize([dx/2; 1]) from rows [0:3) and [15:18),
left-multiplies them onto the current and keyframe quaternions, adds
rows [3:6), [6:9), [9:12), [12:15), [18:21) onto the position, velocity,
gyro-bias, accel-bias and keyframe-position entries of the flat value,
and commits the whole new 23-vector through set_value.  The vector the
update writes is named first, then the operation itself. -/
def IMU.newX (b : IMU) (dx : List ℚ) : List ℚ :=
  let dq := quatnorm [1/2 * dx.getD 0 0, 1/2 * dx.getD 1 0, 1/2 * dx.getD 2 0, 1]
  let dkq := quatnorm [1/2 * dx.getD 15 0, 1/2 * dx.getD 16 0, 1/2 * dx.getD 17 0, 1]
  quat_multiply dq b.quat
  ++ [b.value.getD 4 0 + dx.getD 3 0, b.value.getD 5 0 + dx.getD 4 0,
      b.value.getD 6 0 + dx.getD 5 0]
  ++ [b.value.getD 7 0 + dx.getD 6 0, b.value.getD 8 0 + dx.getD 7 0,
      b.value.getD 9 0 + dx.getD 8 0]
  ++ [b.value.getD 10 0 + dx.getD 9 0, b.value.getD 11 0 + dx.getD 10 0,
      b.value.getD 12 0 + dx.getD 11 0]
  ++ [b.value.getD 13 0 + dx.getD 12 0, b.value.getD 14 0 + dx.getD 13 0,
      b.value.getD 15 0 + dx.getD 14 0]
  ++ quat_multiply dkq b.keyframe_quat
  ++ [b.value.getD 20 0 + dx.getD 18 0, b.value.getD 21 0 + dx.getD 19 0,
      b.value.getD 22 0 + dx.getD 20 0]

def IMU.update (b : IMU) (dx : List ℚ) : Option IMU :=
  if dx.length = IMU.sz then b.set_value (colVec (b.newX dx)) else none

/-- Modelled from the spec: the default PoseJPL value, identity
orientation (scalar-last) and zero position. -/
def poseIdentity : List ℚ := [0, 0, 0, 1, 0, 0, 0]

/-- IMU::reset_keyframe_states from IMU.h: write the default pose value
into the keyframe child (value and linearization value) and into rows
[16:23) of both flat vectors; nothing else is touched. -/
def IMU.reset_keyframe_states (b : IMU) : Option IMU :=
  (b.keyframe_pose.set_value poseIdentity).bind fun kf1 =>
  (kf1.set_fej poseIdentity).bind fun kf2 =>
  some { b with keyframe_pose := kf2,
                value := b.value.take 16 ++ poseIdentity ++ b.value.drop 23,
                fej := b.fej.take 16 ++ poseIdentity ++ b.fej.drop 23 }

/-- Modelled from the spec: the default 3-dimensional Euclidean leaf
(Vec(3)): zero value, zero linearization value, unregistered index. -/
def Vec.zero3 : Vec := ⟨3, -1, [0, 0, 0], [0, 0, 0]⟩

/-- Modelled from the spec: the default JPLQuat, identity orientation. -/
def JPLQuat.ident : JPLQuat := ⟨-1, [0, 0, 0, 1], [0, 0, 0, 1]⟩

/-- Modelled from the spec: the default PoseJPL. -/
def PoseJPL.ident : PoseJPL := ⟨-1, JPLQuat.ident, Vec.zero3, poseIdentity, poseIdentity⟩

/-- The default 23-vector the IMU constructor installs: all zeros except
entries 3 and 19, the two quaternion scalar components, which are 1. -/
def imu0 : List ℚ :=
  [0, 0, 0, 1, 0, 0, 0, 0, 0, 0, 0, 0, 0, 0, 0, 0, 0, 0, 0, 1, 0, 0, 0]

/-- The IMU as it stands in the constructor right after the children are
allocated, before set_value_internal runs: default children, empty flat
vectors (a default Eigen VectorXd has zero rows), unregistered index. -/
def IMU.blank : IMU :=
  ⟨-1, PoseJPL.ident, Vec.zero3, Vec.zero3, Vec.zero3, PoseJPL.ident, [], []⟩

/-- The IMU constructor of IMU.h: wire default children, then push imu0
through set_value_internal and set_fej_internal.  Both calls provably
succeed (imu_init_eq below), so the getD fallback is never taken. -/
def IMU.init : IMU :=
  ((IMU.blank.set_value_internal (colVec imu0)).bind fun b =>
    b.set_fej_internal (colVec imu0)).getD IMU.blank

/-- IMU::clone from IMU.h: build a fresh default IMU, then push the
source block's flat value and linearization value through the public
setters.  The clone's covariance index is the fresh block's, -1. -/
def IMU.clone (b : IMU) : Option IMU :=
  (IMU.init.set_value (colVec b.value)).bind fun c1 => c1.set_fej (colVec b.fej)

/-- The distinct heap objects a caller can hand to
IMU::check_if_subvariable: the five children, the four grandchildren,
the IMU itself, and any block outside this tree. -/
inductive Handle where
  | pose
  | poseQ
  | poseP
  | vel
  | gbias
  | abias
  | kframe
  | kframeQ
  | kframeP
  | imuSelf
  | foreign
deriving DecidableEq

/-- Modelled from the spec: PoseJPL::check_if_subvariable compares the
target against the quaternion child, then the position child, and
reports not-found otherwise.  The two handles name this pose's children. -/
def PoseJPL.check_if_subvariable (qh ph target : Handle) : Option Handle :=
  if target = qh then some qh
  else if target = ph then some ph
  else none

/-- IMU::check_if_subvariable from IMU.h, with pointer identity replaced
by handle equality: test the pose, then compare the target against the
pose's own recursive lookup (the source calls the child lookup inside
the comparison and again to produce the result), then velocity, gyro
bias, accel bias, the keyframe pose and its recursive lookup, and
return null otherwise. -/
def IMU.check_if_subvariable (target : Handle) : Option Handle :=
  if target = Handle.pose then some Handle.pose
  else if some target = PoseJPL.check_if_subvariable Handle.poseQ Handle.poseP target then
    PoseJPL.check_if_subvariable Handle.poseQ Handle.poseP target
  else if target = Handle.vel then some Handle.vel
  else if target = Handle.gbias then some Handle.gbias
  else if target = Handle.abias then some Handle.abias
  else if target = Handle.kframe then some Handle.kframe
  else if some target = PoseJPL.check_if_subvariable Handle.kframeQ Handle.kframeP target then
    PoseJPL.check_if_subvariable Handle.kframeQ Handle.kframeP target
  else none

/-- Shape and well-wiring of one pose composite: the children's value
and linearization value are the sub-ranges of the pose's flat 7-vector
(quaternion rows [0:4), position rows [4:7)). -/
def PoseJPL.wired (b : PoseJPL) : Prop :=
  b.value.length = 7 ∧ b.fej.length = 7 ∧
  b.q.value = b.value.take 4 ∧ b.p.value = (b.value.drop 4).take 3 ∧
  b.q.fej = b.fej.take 4 ∧ b.p.fej = (b.fej.drop 4).take 3

/-- The parent-child consistency stated by the spec for the IMU block:
each child's value is the matching sub-range of the flat 23-vector, on
both the value track and the linearization track. -/
def IMU.childrenMatch (b : IMU) : Prop :=
  b.pose.value = b.value.take 7 ∧
  b.v.value = (b.value.drop 7).take 3 ∧
  b.bg.value = (b.value.drop 10).take 3 ∧
  b.ba.value = (b.value.drop 13).take 3 ∧
  b.keyframe_pose.value = (b.value.drop 16).take 7 ∧
  b.pose.fej = b.fej.take 7 ∧
  b.v.fej = (b.fej.drop 7).take 3 ∧
  b.bg.fej = (b.fej.drop 10).take 3 ∧
  b.ba.fej = (b.fej.drop 13).take 3 ∧
  b.keyframe_pose.fej = (b.fej.drop 16).take 7

/-- The inductive invariant of the IMU block: 23-dimensional flat
vectors, parent-child consistency, and well-wired pose composites. -/
def IMU.inv (b : IMU) : Prop :=
  b.value.length = 23 ∧ b.fej.length = 23 ∧
  b.childrenMatch ∧ b.pose.wired ∧ b.keyframe_pose.wired

/-- Characterization of Vec::set_value: it succeeds exactly on a
same-length argument and then overwrites the value field. -/
theorem vec_set_value_some {b : Vec} {nv : List ℚ} {b2 : Vec} :
    b.set_value nv = some b2 ↔ nv.length = b.value.length ∧ b2 = { b with value := nv } := by
  unfold Vec.set_value
  split <;> simp_all
  exact eq_comm

/-- Characterization of Vec::set_fej. -/
theorem vec_set_fej_some {b : Vec} {nv : List ℚ} {b2 : Vec} :
    b.set_fej nv = some b2 ↔ nv.length = b.fej.length ∧ b2 = { b with fej := nv } := by
  unfold Vec.set_fej
  split <;> simp_all
  exact eq_comm

/-- Characterization of JPLQuat::set_value. -/
theorem quat_set_value_some {b : JPLQuat} {nv : List ℚ} {b2 : JPLQuat} :
    b.set_value nv = some b2 ↔ nv.length = 4 ∧ b2 = { b with value := nv } := by
  unfold JPLQuat.set_value
  split <;> simp_all
  exact eq_comm

/-- Characterization of JPLQuat::set_fej. -/
theorem quat_set_fej_some {b : JPLQuat} {nv : List ℚ} {b2 : JPLQuat} :
    b.set_fej nv = some b2 ↔ nv.length = 4 ∧ b2 = { b with fej := nv } := by
  unfold JPLQuat.set_fej
  split <;> simp_all
  exact eq_comm

/-- Characterization of PoseJPL::set_value: the argument must have 7
rows, the position child must currently hold a 3-vector (so that the
inner shape assert of the Euclidean leaf passes), and the result is the
record with both children and the flat value overwritten. -/
theorem pose_set_value_some {b : PoseJPL} {nv : List ℚ} {b2 : PoseJPL} :
    b.set_value nv = some b2 ↔
      nv.length = 7 ∧ b.p.value.length = 3 ∧
      b2 = { b with q := { b.q with value := nv.take 4 },
                    p := { b.p with value := (nv.drop 4).take 3 },
                    value := nv } := by
  unfold PoseJPL.set_value
  split
  · next h7 =>
    simp only [Option.bind_eq_some, quat_set_value_some, vec_set_value_some]
    constructor
    · rintro ⟨q2, ⟨hq4, rfl⟩, p2, ⟨hp3, rfl⟩, hsome⟩
      have hlen : ((nv.drop 4).take 3).length = 3 := by
        simp [List.length_take, List.length_drop, h7]
      refine ⟨h7, by rw [← hp3, hlen], ?_⟩
      simpa using hsome.symm
    · rintro ⟨-, hp, rfl⟩
      refine ⟨_, ⟨by simp [List.length_take, h7], rfl⟩, _, ⟨?_, rfl⟩, rfl⟩
      simp [List.length_take, List.length_drop, h7, hp]
  · next h7 =>
    simp [h7]

/-- Characterization of PoseJPL::set_fej. -/
theorem pose_set_fej_some {b : PoseJPL} {nv : List ℚ} {b2 : PoseJPL} :
    b.set_fej nv = some b2 ↔
      nv.length = 7 ∧ b.p.fej.length = 3 ∧
      b2 = { b with q := { b.q with fej := nv.take 4 },
                    p := { b.p with fej := (nv.drop 4).take 3 },
                    fej := nv } := by
  unfold PoseJPL.set_fej
  split
  · next h7 =>
    simp only [Option.bind_eq_some, quat_set_fej_some, vec_set_fej_some]
    constructor
    · rintro ⟨q2, ⟨hq4, rfl⟩, p2, ⟨hp3, rfl⟩, hsome⟩
      have hlen : ((nv.drop 4).take 3).length = 3 := by
        simp [List.length_take, List.length_drop, h7]
      refine ⟨h7, by rw [← hp3, hlen], ?_⟩
      simpa using hsome.symm
    · rintro ⟨-, hp, rfl⟩
      refine ⟨_, ⟨by simp [List.length_take, h7], rfl⟩, _, ⟨?_, rfl⟩, rfl⟩
      simp [List.length_take, List.length_drop, h7, hp]
  · next h7 =>
    simp [h7]

/-- Characterization of IMU::set_value_internal: the argument must be a
23x1 column, the five Euclidean leaves must currently hold 3-vectors
(their own shape asserts), and the result overwrites every child with
its sub-range and the flat value with the whole column. -/
theorem IMU.set_value_internal_eq {b : IMU} {m : MatX} {b2 : IMU} :
    b.set_value_internal m = some b2 ↔
      m.data.length = 23 ∧ m.cols = 1 ∧
      b.pose.p.value.length = 3 ∧ b.v.value.length = 3 ∧ b.bg.value.length = 3 ∧
      b.ba.value.length = 3 ∧ b.keyframe_pose.p.value.length = 3 ∧
      b2 = { b with
             pose := { b.pose with
                       q := { b.pose.q with value := (m.data.take 7).take 4 },
                       p := { b.pose.p with value := ((m.data.take 7).drop 4).take 3 },
                       value := m.data.take 7 },
             v := { b.v with value := (m.data.drop 7).take 3 },
             bg := { b.bg with value := (m.data.drop 10).take 3 },
             ba := { b.ba with value := (m.data.drop 13).take 3 },
             keyframe_pose := { b.keyframe_pose with
                       q := { b.keyframe_pose.q with value := ((m.data.drop 16).take 7).take 4 },
                       p := { b.keyframe_pose.p with value := (((m.data.drop 16).take 7).drop 4).take 3 },
                       value := (m.data.drop 16).take 7 },
             value := m.data } := by
  unfold IMU.set_value_internal
  split
  · next hg =>
    obtain ⟨h23, hc⟩ := hg
    simp only [Option.bind_eq_some, pose_set_value_some, vec_set_value_some]
    constructor
    · rintro ⟨pose2, ⟨-, hp3, rfl⟩, v2, ⟨hv, rfl⟩, bg2, ⟨hbg, rfl⟩, ba2, ⟨hba, rfl⟩,
              kf2, ⟨-, hkp3, rfl⟩, hsome⟩
      refine ⟨h23, hc, hp3, ?_, ?_, ?_, hkp3, by simpa using hsome.symm⟩
      · rw [← hv]; simp [h23]
      · rw [← hbg]; simp [h23]
      · rw [← hba]; simp [h23]
    · rintro ⟨-, -, hp3, hv3, hbg3, hba3, hkp3, rfl⟩
      refine ⟨_, ⟨by simp [h23], hp3, rfl⟩, _, ⟨by simp [h23, hv3], rfl⟩,
              _, ⟨by simp [h23, hbg3], rfl⟩, _, ⟨by simp [h23, hba3], rfl⟩,
              _, ⟨by simp [h23], hkp3, rfl⟩, rfl⟩
  · next hg =>
    constructor
    · intro h; exact Option.noConfusion h
    · rintro ⟨h23, hc, -⟩; exact absurd ⟨h23, hc⟩ hg

/-- Characterization of IMU::set_fej_internal. -/
theorem IMU.set_fej_internal_eq {b : IMU} {m : MatX} {b2 : IMU} :
    b.set_fej_internal m = some b2 ↔
      m.data.length = 23 ∧ m.cols = 1 ∧
      b.pose.p.fej.length = 3 ∧ b.v.fej.length = 3 ∧ b.bg.fej.length = 3 ∧
      b.ba.fej.length = 3 ∧ b.keyframe_pose.p.fej.length = 3 ∧
      b2 = { b with
             pose := { b.pose with
                       q := { b.pose.q with fej := (m.data.take 7).take 4 },
                       p := { b.pose.p with fej := ((m.data.take 7).drop 4).take 3 },
                       fej := m.data.take 7 },
             v := { b.v with fej := (m.data.drop 7).take 3 },
             bg := { b.bg with fej := (m.data.drop 10).take 3 },
             ba := { b.ba with fej := (m.data.drop 13).take 3 },
             keyframe_pose := { b.keyframe_pose with
                       q := { b.keyframe_pose.q with fej := ((m.data.drop 16).take 7).take 4 },
                       p := { b.keyframe_pose.p with fej := (((m.data.drop 16).take 7).drop 4).take 3 },
                       fej := (m.data.drop 16).take 7 },
             fej := m.data } := by
  unfold IMU.set_fej_internal
  split
  · next hg =>
    obtain ⟨h23, hc⟩ := hg
    simp only [Option.bind_eq_some, pose_set_fej_some, vec_set_fej_some]
    constructor
    · rintro ⟨pose2, ⟨-, hp3, rfl⟩, v2, ⟨hv, rfl⟩, bg2, ⟨hbg, rfl⟩, ba2, ⟨hba, rfl⟩,
              kf2, ⟨-, hkp3, rfl⟩, hsome⟩
      refine ⟨h23, hc, hp3, ?_, ?_, ?_, hkp3, by simpa using hsome.symm⟩
      · rw [← hv]; simp [h23]
      · rw [← hbg]; simp [h23]
      · rw [← hba]; simp [h23]
    · rintro ⟨-, -, hp3, hv3, hbg3, hba3, hkp3, rfl⟩
      refine ⟨_, ⟨by simp [h23], hp3, rfl⟩, _, ⟨by simp [h23, hv3], rfl⟩,
              _, ⟨by simp [h23, hbg3], rfl⟩, _, ⟨by simp [h23, hba3], rfl⟩,
              _, ⟨by simp [h23], hkp3, rfl⟩, rfl⟩
  · next hg =>
    constructor
    · intro h; exact Option.noConfusion h
    · rintro ⟨h23, hc, -⟩; exact absurd ⟨h23, hc⟩ hg

/-- The IMU constructor produces default children, the default flat
value imu0 on both tracks, and an unregistered index. -/
theorem IMU.init_eq :
    IMU.init = ⟨-1, PoseJPL.ident, Vec.zero3, Vec.zero3, Vec.zero3, PoseJPL.ident, imu0, imu0⟩ :=
  rfl

/-- The candidate vector an update writes always has 23 rows. -/
theorem IMU.newX_length (b : IMU) (dx : List ℚ) : (b.newX dx).length = 23 := by
  simp [IMU.newX, quat_multiply]

/-- Characterization of IMU::update: the correction must have 21 rows,
the Euclidean leaves must hold 3-vectors, and the result is the newX
column distributed by set_value. -/
theorem IMU.update_eq {b : IMU} {dx : List ℚ} {b2 : IMU} :
    b.update dx = some b2 ↔
      dx.length = 21 ∧
      b.pose.p.value.length = 3 ∧ b.v.value.length = 3 ∧ b.bg.value.length = 3 ∧
      b.ba.value.length = 3 ∧ b.keyframe_pose.p.value.length = 3 ∧
      b2 = { b with
             pose := { b.pose with
                       q := { b.pose.q with value := ((b.newX dx).take 7).take 4 },
                       p := { b.pose.p with value := (((b.newX dx).take 7).drop 4).take 3 },
                       value := (b.newX dx).take 7 },
             v := { b.v with value := ((b.newX dx).drop 7).take 3 },
             bg := { b.bg with value := ((b.newX dx).drop 10).take 3 },
             ba := { b.ba with value := ((b.newX dx).drop 13).take 3 },
             keyframe_pose := { b.keyframe_pose with
                       q := { b.keyframe_pose.q with value := (((b.newX dx).drop 16).take 7).take 4 },
                       p := { b.keyframe_pose.p with value := ((((b.newX dx).drop 16).take 7).drop 4).take 3 },
                       value := ((b.newX dx).drop 16).take 7 },
             value := b.newX dx } := by
  unfold IMU.update IMU.set_value
  split
  · next h21 =>
    rw [IMU.set_value_internal_eq]
    simp only [colVec, IMU.newX_length, true_and]
    rw [show dx.length = 21 from h21]
    simp
  · next h21 =>
    constructor
    · intro h; exact Option.noConfusion h
    · rintro ⟨h, -⟩; exact absurd (show dx.length = IMU.sz from h) h21

/-- Characterization of IMU::reset_keyframe_states: the keyframe pose's
position leaf must hold 3-vectors on both tracks (the shape asserts of
the inner setters), and the result rewrites the keyframe child and rows
[16:23) of both flat vectors with the default pose value. -/
theorem IMU.reset_eq {b : IMU} {b2 : IMU} :
    b.reset_keyframe_states = some b2 ↔
      b.keyframe_pose.p.value.length = 3 ∧ b.keyframe_pose.p.fej.length = 3 ∧
      b2 = { b with
             keyframe_pose := { b.keyframe_pose with
                       q := { b.keyframe_pose.q with
                              value := poseIdentity.take 4, fej := poseIdentity.take 4 },
                       p := { b.keyframe_pose.p with
                              value := (poseIdentity.drop 4).take 3,
                              fej := (poseIdentity.drop 4).take 3 },
                       value := poseIdentity, fej := poseIdentity },
             value := b.value.take 16 ++ poseIdentity ++ b.value.drop 23,
             fej := b.fej.take 16 ++ poseIdentity ++ b.fej.drop 23 } := by
  unfold IMU.reset_keyframe_states
  simp only [Option.bind_eq_some, pose_set_value_some, pose_set_fej_some]
  constructor
  · rintro ⟨kf1, ⟨-, hp3, rfl⟩, kf2, ⟨-, hpf3, rfl⟩, hsome⟩
    exact ⟨hp3, hpf3, by simpa using hsome.symm⟩
  · rintro ⟨hp3, hpf3, rfl⟩
    exact ⟨_, ⟨rfl, hp3, rfl⟩, _, ⟨rfl, hpf3, rfl⟩, rfl⟩

/-- What IMU::clone guarantees about its result: flat value and
linearization value copied wholesale, covariance index left at the
fresh block's -1. -/
theorem IMU.clone_spec {b : IMU} {b2 : IMU} (h : b.clone = some b2) :
    b2.value = b.value ∧ b2.fej = b.fej ∧ b2.id = -1 := by
  unfold IMU.clone at h
  rw [Option.bind_eq_some] at h
  obtain ⟨c1, hc1, hc2⟩ := h
  rw [IMU.set_value, IMU.set_value_internal_eq] at hc1
  obtain ⟨-, -, -, -, -, -, -, rfl⟩ := hc1
  rw [IMU.set_fej, IMU.set_fej_internal_eq] at hc2
  obtain ⟨-, -, -, -, -, -, -, rfl⟩ := hc2
  exact ⟨rfl, rfl, rfl⟩

/-- The all-zero 21-dimensional error-state correction. -/
def z21 : List ℚ :=
  [0, 0, 0, 0, 0, 0, 0, 0, 0, 0, 0, 0, 0, 0, 0, 0, 0, 0, 0, 0, 0]

/-- A nonzero 21-dimensional correction: one unit of position change. -/
def dxEx : List ℚ :=
  [0, 0, 0, 1, 0, 0, 0, 0, 0, 0, 0, 0, 0, 0, 0, 0, 0, 0, 0, 0, 0]

/-- A well-formed 23-vector whose keyframe sub-range holds the unit
quaternion [1/2, 1/2, 1/2, 1/2] and the position [1, 2, 3]. -/
def exV : List ℚ :=
  [0, 0, 0, 1, 0, 0, 0, 0, 0, 0, 0, 0, 0, 0, 0, 0,
   1/2, 1/2, 1/2, 1/2, 1, 2, 3]

/-- A default IMU whose keyframe pose was then set to the exV state. -/
def exKF : IMU := (IMU.init.set_value (colVec exV)).getD IMU.blank

/-- Two IMU blocks side by side, with the update applied to the second
one only: the world in which clone independence is observed. -/
def updateSecond (p : IMU × IMU) (dx : List ℚ) : Option (IMU × IMU) :=
  (p.2.update dx).map fun c => (p.1, c)

/-- Claim C1: after IMU::set_local_id(i) the five children's covariance
indices follow the running-offset rule: the pose receives i, and each
later child receives the previous child's index plus the previous
child's error dimension when i is not -1 and plus 0 when i is -1 (so
with i = -1 every child receives -1); in particular set_local_id(5) on
the default IMU yields pose 5, velocity 11, gyro bias 14, accel bias 17
and keyframe pose 20. -/
theorem set_local_id_running_offsets (b : IMU) (i : Int) :
    ((b.set_local_id i).id = i) ∧
    ((b.set_local_id i).pose.id = i) ∧
    ((b.set_local_id i).v.id =
       (b.set_local_id i).pose.id + (if i = -1 then 0 else (PoseJPL.size : Int))) ∧
    ((b.set_local_id i).bg.id =
       (b.set_local_id i).v.id + (if i = -1 then 0 else (b.v.size : Int))) ∧
    ((b.set_local_id i).ba.id =
       (b.set_local_id i).bg.id + (if i = -1 then 0 else (b.bg.size : Int))) ∧
    ((b.set_local_id i).keyframe_pose.id =
       (b.set_local_id i).ba.id + (if i = -1 then 0 else (b.ba.size : Int))) ∧
    ((b.set_local_id (-1)).pose.id = -1 ∧ (b.set_local_id (-1)).v.id = -1 ∧
     (b.set_local_id (-1)).bg.id = -1 ∧ (b.set_local_id (-1)).ba.id = -1 ∧
     (b.set_local_id (-1)).keyframe_pose.id = -1) ∧
    ((IMU.init.set_local_id 5).pose.id = 5 ∧ (IMU.init.set_local_id 5).v.id = 11 ∧
     (IMU.init.set_local_id 5).bg.id = 14 ∧ (IMU.init.set_local_id 5).ba.id = 17 ∧
     (IMU.init.set_local_id 5).keyframe_pose.id = 20) := by
  simp only [IMU.set_local_id, PoseJPL.set_local_id, Vec.set_local_id, JPLQuat.set_local_id,
             Vec.size, PoseJPL.size, ite_not]
  norm_num [IMU.init_eq, Vec.zero3]

/-- Claim C2: a successful IMU::update composes the normalized increment
quaternion built from rows [0:3) onto the current orientation and the
one built from rows [15:18) onto the keyframe orientation, and adds the
remaining rows of the correction at the fixed offsets onto position,
velocity, gyro bias, accel bias and keyframe position. -/
theorem update_split_laws (b : IMU) (dx : List ℚ) (b2 : IMU) (h : b.update dx = some b2) :
    b2.value.take 4 =
      quat_multiply (quatnorm [1/2 * dx.getD 0 0, 1/2 * dx.getD 1 0, 1/2 * dx.getD 2 0, 1])
        b.pose.q.value ∧
    (b2.value.drop 4).take 3 =
      [b.value.getD 4 0 + dx.getD 3 0, b.value.getD 5 0 + dx.getD 4 0,
       b.value.getD 6 0 + dx.getD 5 0] ∧
    (b2.value.drop 7).take 3 =
      [b.value.getD 7 0 + dx.getD 6 0, b.value.getD 8 0 + dx.getD 7 0,
       b.value.getD 9 0 + dx.getD 8 0] ∧
    (b2.value.drop 10).take 3 =
      [b.value.getD 10 0 + dx.getD 9 0, b.value.getD 11 0 + dx.getD 10 0,
       b.value.getD 12 0 + dx.getD 11 0] ∧
    (b2.value.drop 13).take 3 =
      [b.value.getD 13 0 + dx.getD 12 0, b.value.getD 14 0 + dx.getD 13 0,
       b.value.getD 15 0 + dx.getD 14 0] ∧
    (b2.value.drop 16).take 4 =
      quat_multiply (quatnorm [1/2 * dx.getD 15 0, 1/2 * dx.getD 16 0, 1/2 * dx.getD 17 0, 1])
        b.keyframe_pose.q.value ∧
    (b2.value.drop 20).take 3 =
      [b.value.getD 20 0 + dx.getD 18 0, b.value.getD 21 0 + dx.getD 19 0,
       b.value.getD 22 0 + dx.getD 20 0] := by
  rw [IMU.update_eq] at h
  obtain ⟨-, -, -, -, -, -, rfl⟩ := h
  refine ⟨?_, ?_, ?_, ?_, ?_, ?_, ?_⟩ <;>
    simp [IMU.newX, quat_multiply, IMU.quat, IMU.keyframe_quat, PoseJPL.quat]

/-- Claim C2 witness at the concrete input: default state, one unit of
position correction. -/
theorem update_split_laws_w :
    ((IMU.init.update dxEx).getD IMU.blank).value.take 4 =
      quat_multiply
        (quatnorm [1/2 * dxEx.getD 0 0, 1/2 * dxEx.getD 1 0, 1/2 * dxEx.getD 2 0, 1])
        IMU.init.pose.q.value ∧
    (((IMU.init.update dxEx).getD IMU.blank).value.drop 4).take 3 =
      [IMU.init.value.getD 4 0 + dxEx.getD 3 0, IMU.init.value.getD 5 0 + dxEx.getD 4 0,
       IMU.init.value.getD 6 0 + dxEx.getD 5 0] :=
  ⟨(update_split_laws IMU.init dxEx _ rfl).1, (update_split_laws IMU.init dxEx _ rfl).2.1⟩

/-- Claim C3: an update with a correction that does not have exactly 21
rows aborts, and a set_value or set_fej whose argument is not exactly
23x1 aborts; the abort (Option.none here, a fatal assert in the source)
happens before any write, so no partial mutation is ever observable. -/
theorem dimension_guard_aborts (b : IMU) (dx : List ℚ) (m : MatX) :
    (dx.length ≠ 21 → b.update dx = none) ∧
    (¬ (m.data.length = 23 ∧ m.cols = 1) → b.set_value m = none ∧ b.set_fej m = none) := by
  refine ⟨fun h => ?_, fun h => ⟨?_, ?_⟩⟩
  · unfold IMU.update
    exact if_neg (by simpa [IMU.sz] using h)
  · unfold IMU.set_value IMU.set_value_internal
    exact if_neg h
  · unfold IMU.set_fej IMU.set_fej_internal
    exact if_neg h

/-- Claim C3 witness: an empty correction, a two-column 23-row value and
an empty column all abort. -/
theorem dimension_guard_aborts_w :
    IMU.init.update [] = none ∧
    IMU.init.set_value ⟨2, imu0⟩ = none ∧
    IMU.init.set_fej ⟨1, []⟩ = none :=
  ⟨(dimension_guard_aborts IMU.init [] ⟨2, imu0⟩).1 (by decide),
   ((dimension_guard_aborts IMU.init [] ⟨2, imu0⟩).2 (by decide)).1,
   ((dimension_guard_aborts IMU.init [] ⟨1, ([] : List ℚ)⟩).2 (by decide)).2⟩

/-- Claim C4: for a well-formed 23x1 vector (unit-norm quaternion rows
[0:4) and [16:20)), a successful set_value stores exactly that vector as
the flat value, and a successful set_fej stores it as the flat
linearization value. -/
theorem set_value_roundtrip (b : IMU) (v : List ℚ) (b2 b3 : IMU)
    (hq : (v.getD 0 0) ^ 2 + (v.getD 1 0) ^ 2 + (v.getD 2 0) ^ 2 + (v.getD 3 0) ^ 2 = 1)
    (hkq : (v.getD 16 0) ^ 2 + (v.getD 17 0) ^ 2 + (v.getD 18 0) ^ 2 + (v.getD 19 0) ^ 2 = 1)
    (hv : b.set_value (colVec v) = some b2) (hf : b.set_fej (colVec v) = some b3) :
    b2.value = v ∧ b3.fej = v := by
  rw [IMU.set_value, IMU.set_value_internal_eq] at hv
  obtain ⟨-, -, -, -, -, -, -, rfl⟩ := hv
  rw [IMU.set_fej, IMU.set_fej_internal_eq] at hf
  obtain ⟨-, -, -, -, -, -, -, rfl⟩ := hf
  exact ⟨rfl, rfl⟩

/-- Claim C4 witness at the default well-formed vector. -/
theorem set_value_roundtrip_w :
    ((IMU.init.set_value (colVec imu0)).getD IMU.blank).value = imu0 ∧
    ((IMU.init.set_fej (colVec imu0)).getD IMU.blank).fej = imu0 :=
  set_value_roundtrip IMU.init imu0 _ _ (by norm_num [imu0]) (by norm_num [imu0]) rfl rfl

/-- The zero correction turns into the identity increment quaternion
and zero additive offsets, so newX on the default state is imu0. -/
theorem newX_zero : IMU.init.newX z21 = imu0 := by
  norm_num [IMU.newX, quat_multiply, quatnorm, ratSqrt, IMU.quat, IMU.keyframe_quat,
            PoseJPL.quat, IMU.init_eq, PoseJPL.ident, JPLQuat.ident, imu0, z21, Nat.sqrt]

/-- Claim C5: the default-constructed IMU holds identity orientation,
zero position, velocity and biases, identity keyframe orientation and
zero keyframe position, and updating it with the all-zero 21-vector
leaves the 23-dimensional value unchanged. -/
theorem zero_delta_identity :
    IMU.init.value = [0, 0, 0, 1, 0, 0, 0, 0, 0, 0, 0, 0, 0, 0, 0, 0, 0, 0, 0, 1, 0, 0, 0] ∧
    (IMU.init.update z21).map IMU.value = some IMU.init.value := by
  refine ⟨rfl, ?_⟩
  have h1 : IMU.init.update z21 = some ((IMU.init.update z21).getD IMU.blank) := rfl
  have h2 : ((IMU.init.update z21).getD IMU.blank).value = IMU.init.newX z21 := rfl
  rw [h1, Option.map_some', h2, newX_zero]
  rfl

/-- Any pad-shaped rewrite of rows [16:23) of a 23-vector keeps every
initial segment of length at most 16. -/
theorem take_of_pad {l r : List ℚ} (hl : l.length = 23) (n : Nat) (hn : n ≤ 16) :
    (l.take 16 ++ r ++ l.drop 23).take n = l.take n := by
  rw [List.drop_eq_nil_of_le (by omega), List.append_nil,
      List.take_append_of_le_length (by simp [hl]; omega), List.take_take,
      Nat.min_eq_left hn]

/-- Dropping 16 rows of the pad-shaped rewrite exposes the new tail. -/
theorem drop16_of_pad {l r : List ℚ} (hl : l.length = 23) :
    (l.take 16 ++ r ++ l.drop 23).drop 16 = r := by
  rw [show l.drop 23 = [] from List.drop_eq_nil_of_le (by omega), List.append_nil,
      List.drop_left' (show (l.take 16).length = 16 by simp [hl])]

/-- A 3-row slice wholly inside the first 16 rows is untouched by the
pad-shaped rewrite. -/
theorem mid_of_pad {l r : List ℚ} (hl : l.length = 23) (k : Nat) (hk : k + 3 ≤ 16) :
    ((l.take 16 ++ r ++ l.drop 23).drop k).take 3 = (l.drop k).take 3 := by
  rw [show l.drop 23 = [] from List.drop_eq_nil_of_le (by omega), List.append_nil,
      List.drop_append_eq_append_drop,
      Nat.sub_eq_zero_of_le (by simp [hl]; omega), List.drop_zero,
      List.drop_take,
      List.take_append_of_le_length (by simp [hl, List.length_take, List.length_drop]; omega),
      List.take_take, Nat.min_eq_left (by omega)]

/-- Claim C6: reset_keyframe_states writes identity orientation and zero
position into rows [16:23) of both the value and the linearization
value, rewrites the keyframe child the same way, and leaves the first
16 rows of both flat vectors, the other four children and every
covariance index unchanged. -/
theorem reset_keyframe_effect (b b2 : IMU)
    (hv23 : b.value.length = 23) (hf23 : b.fej.length = 23)
    (h : b.reset_keyframe_states = some b2) :
    (b2.value.drop 16).take 7 = [0, 0, 0, 1, 0, 0, 0] ∧
    (b2.fej.drop 16).take 7 = [0, 0, 0, 1, 0, 0, 0] ∧
    b2.value.take 16 = b.value.take 16 ∧
    b2.fej.take 16 = b.fej.take 16 ∧
    b2.keyframe_pose.value = [0, 0, 0, 1, 0, 0, 0] ∧
    b2.keyframe_pose.fej = [0, 0, 0, 1, 0, 0, 0] ∧
    b2.pose = b.pose ∧ b2.v = b.v ∧ b2.bg = b.bg ∧ b2.ba = b.ba ∧
    b2.id = b.id ∧ b2.keyframe_pose.id = b.keyframe_pose.id ∧
    b2.keyframe_pose.q.id = b.keyframe_pose.q.id ∧
    b2.keyframe_pose.p.id = b.keyframe_pose.p.id := by
  rw [IMU.reset_eq] at h
  obtain ⟨-, -, rfl⟩ := h
  refine ⟨?_, ?_, ?_, ?_, rfl, rfl, rfl, rfl, rfl, rfl, rfl, rfl, rfl, rfl⟩
  · show ((b.value.take 16 ++ poseIdentity ++ b.value.drop 23).drop 16).take 7 = _
    rw [drop16_of_pad hv23]
    rfl
  · show ((b.fej.take 16 ++ poseIdentity ++ b.fej.drop 23).drop 16).take 7 = _
    rw [drop16_of_pad hf23]
    rfl
  · show (b.value.take 16 ++ poseIdentity ++ b.value.drop 23).take 16 = _
    rw [take_of_pad hv23 16 le_rfl]
  · show (b.fej.take 16 ++ poseIdentity ++ b.fej.drop 23).take 16 = _
    rw [take_of_pad hf23 16 le_rfl]

/-- Claim C6 witness: from keyframe orientation [1/2,1/2,1/2,1/2] and
keyframe position [1,2,3], reset yields identity orientation and zero
position while the first 16 rows are untouched. -/
theorem reset_keyframe_effect_w :
    ((exKF.reset_keyframe_states.getD IMU.blank).value.drop 16).take 7 = [0, 0, 0, 1, 0, 0, 0] ∧
    (exKF.reset_keyframe_states.getD IMU.blank).value.take 16 = exKF.value.take 16 :=
  ⟨(reset_keyframe_effect exKF _ rfl rfl rfl).1,
   (reset_keyframe_effect exKF _ rfl rfl rfl).2.2.1⟩

/-- Claim C7: a successful clone copies the flat value and linearization
value wholesale, carries the unregistered covariance index -1 rather
than the source's index, and updating the clone never changes the
source block's value (stated over the explicit two-block world). -/
theorem clone_unregistered_copy (b b2 : IMU) (h : b.clone = some b2) :
    b2.value = b.value ∧ b2.fej = b.fej ∧ b2.id = -1 ∧
    ∀ dx p2, updateSecond (b, b2) dx = some p2 → p2.1.value = b.value := by
  obtain ⟨h1, h2, h3⟩ := IMU.clone_spec h
  refine ⟨h1, h2, h3, ?_⟩
  rintro dx p2 hp
  unfold updateSecond at hp
  rw [Option.map_eq_some'] at hp
  obtain ⟨c, -, rfl⟩ := hp
  rfl

/-- Claim C7 witness: cloning a registered default IMU (index 5) yields
an unregistered copy with equal value, and updating the copy with a
nonzero correction leaves the source value intact. -/
theorem clone_unregistered_copy_w :
    ((IMU.init.set_local_id 5).clone.getD IMU.blank).value = (IMU.init.set_local_id 5).value ∧
    ((IMU.init.set_local_id 5).clone.getD IMU.blank).id = -1 ∧
    ((updateSecond (IMU.init.set_local_id 5, (IMU.init.set_local_id 5).clone.getD IMU.blank)
        dxEx).getD (IMU.blank, IMU.blank)).1.value = (IMU.init.set_local_id 5).value := by
  have h := clone_unregistered_copy (IMU.init.set_local_id 5)
    ((IMU.init.set_local_id 5).clone.getD IMU.blank) rfl
  exact ⟨h.1, h.2.2.1, h.2.2.2 dxEx _ rfl⟩

/-- Claim C8: the identity lookup finds exactly the five children and
the four pose grandchildren, each returned as itself, and reports
not-found for the IMU block itself and for any foreign block. -/
theorem subvariable_identity_lookup :
    IMU.check_if_subvariable Handle.pose = some Handle.pose ∧
    IMU.check_if_subvariable Handle.poseQ = some Handle.poseQ ∧
    IMU.check_if_subvariable Handle.poseP = some Handle.poseP ∧
    IMU.check_if_subvariable Handle.vel = some Handle.vel ∧
    IMU.check_if_subvariable Handle.gbias = some Handle.gbias ∧
    IMU.check_if_subvariable Handle.abias = some Handle.abias ∧
    IMU.check_if_subvariable Handle.kframe = some Handle.kframe ∧
    IMU.check_if_subvariable Handle.kframeQ = some Handle.kframeQ ∧
    IMU.check_if_subvariable Handle.kframeP = some Handle.kframeP ∧
    IMU.check_if_subvariable Handle.imuSelf = none ∧
    IMU.check_if_subvariable Handle.foreign = none := by
  decide

/-- Claim C9: a successful update never touches the linearization track:
the flat fej vector and the fej of every child and grandchild are the
same before and after. -/
theorem update_preserves_linearization (b : IMU) (dx : List ℚ) (b2 : IMU)
    (h : b.update dx = some b2) :
    b2.fej = b.fej ∧ b2.pose.fej = b.pose.fej ∧ b2.pose.q.fej = b.pose.q.fej ∧
    b2.pose.p.fej = b.pose.p.fej ∧ b2.v.fej = b.v.fej ∧ b2.bg.fej = b.bg.fej ∧
    b2.ba.fej = b.ba.fej ∧ b2.keyframe_pose.fej = b.keyframe_pose.fej ∧
    b2.keyframe_pose.q.fej = b.keyframe_pose.q.fej ∧
    b2.keyframe_pose.p.fej = b.keyframe_pose.p.fej := by
  rw [IMU.update_eq] at h
  obtain ⟨-, -, -, -, -, -, rfl⟩ := h
  exact ⟨rfl, rfl, rfl, rfl, rfl, rfl, rfl, rfl, rfl, rfl⟩

/-- Claim C9 witness at the default state and the zero correction. -/
theorem update_preserves_linearization_w :
    ((IMU.init.update z21).getD IMU.blank).fej = IMU.init.fej :=
  (update_preserves_linearization IMU.init z21 _ rfl).1

/-- The default-constructed IMU satisfies the wiring invariant. -/
theorem inv_init : IMU.init.inv :=
  ⟨rfl, rfl, ⟨rfl, rfl, rfl, rfl, rfl, rfl, rfl, rfl, rfl, rfl⟩,
   ⟨rfl, rfl, rfl, rfl, rfl, rfl⟩, ⟨rfl, rfl, rfl, rfl, rfl, rfl⟩⟩

/-- set_value keeps the wiring invariant. -/
theorem inv_set_value (b : IMU) (m : MatX) (b2 : IMU) (hinv : b.inv)
    (h : b.set_value m = some b2) : b2.inv := by
  rw [IMU.set_value, IMU.set_value_internal_eq] at h
  obtain ⟨h23, -, -, -, -, -, -, rfl⟩ := h
  obtain ⟨hv23, hf23, ⟨c1, c2, c3, c4, c5, c6, c7, c8, c9, c10⟩,
          ⟨pw1, pw2, pw3, pw4, pw5, pw6⟩, ⟨kw1, kw2, kw3, kw4, kw5, kw6⟩⟩ := hinv
  exact ⟨h23, hf23,
         ⟨rfl, rfl, rfl, rfl, rfl, c6, c7, c8, c9, c10⟩,
         ⟨by simp [h23], pw2, rfl, rfl, pw5, pw6⟩,
         ⟨by simp [h23], kw2, rfl, rfl, kw5, kw6⟩⟩

/-- set_fej keeps the wiring invariant. -/
theorem inv_set_fej (b : IMU) (m : MatX) (b2 : IMU) (hinv : b.inv)
    (h : b.set_fej m = some b2) : b2.inv := by
  rw [IMU.set_fej, IMU.set_fej_internal_eq] at h
  obtain ⟨h23, -, -, -, -, -, -, rfl⟩ := h
  obtain ⟨hv23, hf23, ⟨c1, c2, c3, c4, c5, c6, c7, c8, c9, c10⟩,
          ⟨pw1, pw2, pw3, pw4, pw5, pw6⟩, ⟨kw1, kw2, kw3, kw4, kw5, kw6⟩⟩ := hinv
  exact ⟨hv23, h23,
         ⟨c1, c2, c3, c4, c5, rfl, rfl, rfl, rfl, rfl⟩,
         ⟨pw1, by simp [h23], pw3, pw4, rfl, rfl⟩,
         ⟨kw1, by simp [h23], kw3, kw4, rfl, rfl⟩⟩

/-- update keeps the wiring invariant: it commits through set_value. -/
theorem inv_update (b : IMU) (dx : List ℚ) (b2 : IMU) (hinv : b.inv)
    (h : b.update dx = some b2) : b2.inv := by
  unfold IMU.update at h
  split at h
  · exact inv_set_value _ _ _ hinv h
  · exact Option.noConfusion h

/-- reset_keyframe_states keeps the wiring invariant. -/
theorem inv_reset (b : IMU) (b2 : IMU) (hinv : b.inv)
    (h : b.reset_keyframe_states = some b2) : b2.inv := by
  rw [IMU.reset_eq] at h
  obtain ⟨-, -, rfl⟩ := h
  obtain ⟨hv23, hf23, ⟨c1, c2, c3, c4, c5, c6, c7, c8, c9, c10⟩, pw, kw⟩ := hinv
  refine ⟨?_, ?_, ⟨?_, ?_, ?_, ?_, ?_, ?_, ?_, ?_, ?_, ?_⟩, pw,
          ⟨rfl, rfl, rfl, rfl, rfl, rfl⟩⟩
  · show (b.value.take 16 ++ poseIdentity ++ b.value.drop 23).length = 23
    simp [hv23, poseIdentity]
  · show (b.fej.take 16 ++ poseIdentity ++ b.fej.drop 23).length = 23
    simp [hf23, poseIdentity]
  · show b.pose.value = (b.value.take 16 ++ poseIdentity ++ b.value.drop 23).take 7
    rw [take_of_pad hv23 7 (by norm_num)]; exact c1
  · show b.v.value = ((b.value.take 16 ++ poseIdentity ++ b.value.drop 23).drop 7).take 3
    rw [mid_of_pad hv23 7 (by norm_num)]; exact c2
  · show b.bg.value = ((b.value.take 16 ++ poseIdentity ++ b.value.drop 23).drop 10).take 3
    rw [mid_of_pad hv23 10 (by norm_num)]; exact c3
  · show b.ba.value = ((b.value.take 16 ++ poseIdentity ++ b.value.drop 23).drop 13).take 3
    rw [mid_of_pad hv23 13 (by norm_num)]; exact c4
  · show poseIdentity = ((b.value.take 16 ++ poseIdentity ++ b.value.drop 23).drop 16).take 7
    rw [drop16_of_pad hv23]
    rfl
  · show b.pose.fej = (b.fej.take 16 ++ poseIdentity ++ b.fej.drop 23).take 7
    rw [take_of_pad hf23 7 (by norm_num)]; exact c6
  · show b.v.fej = ((b.fej.take 16 ++ poseIdentity ++ b.fej.drop 23).drop 7).take 3
    rw [mid_of_pad hf23 7 (by norm_num)]; exact c7
  · show b.bg.fej = ((b.fej.take 16 ++ poseIdentity ++ b.fej.drop 23).drop 10).take 3
    rw [mid_of_pad hf23 10 (by norm_num)]; exact c8
  · show b.ba.fej = ((b.fej.take 16 ++ poseIdentity ++ b.fej.drop 23).drop 13).take 3
    rw [mid_of_pad hf23 13 (by norm_num)]; exact c9
  · show poseIdentity = ((b.fej.take 16 ++ poseIdentity ++ b.fej.drop 23).drop 16).take 7
    rw [drop16_of_pad hf23]
    rfl

/-- Claim C10: parent-child consistency is an invariant: it holds after
construction, and each of set_value, set_fej, update and
reset_keyframe_states carries it from any state satisfying it to the
successor state. -/
theorem flat_tree_consistency :
    IMU.init.inv ∧
    (∀ b m b2, IMU.inv b → IMU.set_value b m = some b2 → IMU.inv b2) ∧
    (∀ b m b2, IMU.inv b → IMU.set_fej b m = some b2 → IMU.inv b2) ∧
    (∀ b dx b2, IMU.inv b → IMU.update b dx = some b2 → IMU.inv b2) ∧
    (∀ b b2, IMU.inv b → IMU.reset_keyframe_states b = some b2 → IMU.inv b2) :=
  ⟨inv_init, inv_set_value, inv_set_fej, inv_update, inv_reset⟩

/-- Claim C10 witness: the invariant carried across a concrete update of
the default state. -/
theorem flat_tree_consistency_w : IMU.inv ((IMU.init.update z21).getD IMU.blank) :=
  flat_tree_consistency.2.2.2.1 IMU.init z21 _ flat_tree_consistency.1 rfl

end ov_type
